import Mathlib

/-!
Shallow embedding of the Collaborative Session Coordinator implemented in
src/server/src/server.ts: the in-memory user/room registry
(userSocketMap), the per-room file store (filesByRoom), the ownership map
(fileOwners), the permission matrix (filePermissions), and the socket
event handlers (join-request, disconnecting, grant-permission,
revoke-permission, file-created, file-updated, file-deleted).

JavaScript objects keyed by strings become association lists
(List (String x _)); a handler becomes a pure function from the server
state and the event payload to the new state, the list of emitted events
and the acknowledgment value passed to the callback.
-/

namespace CollabServer

/-- Lookup in an association list keyed by strings
(the JS object read m[k], with the first binding winning). -/
def lookupA {α : Type} (m : List (String × α)) (k : String) : Option α :=
  (m.find? (fun p => p.1 == k)).map (fun p => p.2)

/-- Write m[k] = v in an association list: replace every binding of k in
place when one exists, otherwise append the new binding. -/
def insertA {α : Type} (m : List (String × α)) (k : String) (v : α) : List (String × α) :=
  if (m.find? (fun p => p.1 == k)).isSome then
    m.map (fun p => if p.1 == k then (k, v) else p)
  else
    m ++ [(k, v)]

/-- The JS delete m[k]: remove every binding of k. -/
def eraseA {α : Type} (m : List (String × α)) (k : String) : List (String × α) :=
  m.filter (fun p => p.1 != k)

/-- Model of String.prototype.trim: strip whitespace from both ends. -/
def jsTrim (s : String) : String :=
  ⟨((s.data.dropWhile Char.isWhitespace).reverse.dropWhile Char.isWhitespace).reverse⟩

/-- Model of socket.id.slice(0, 6): the first six characters. -/
def jsSlice6 (s : String) : String :=
  ⟨s.data.take 6⟩

/-- One entry of the permission matrix: { canEdit, canDelete }. -/
structure Perm where
  canEdit : Bool
  canDelete : Bool
deriving DecidableEq, Repr

/-- The raw perms object of a grant-permission payload: either field may
be absent (undefined). -/
structure PermsIn where
  canEdit : Option Bool
  canDelete : Option Bool
deriving DecidableEq, Repr

/-- The User record of src/server/src/types/user (status modelled as the
Bool statusOnline since the server only ever stores ONLINE here). -/
structure User where
  username : String
  roomId : String
  statusOnline : Bool
  cursorPosition : Nat
  typing : Bool
  socketId : String
  currentFile : Option String
deriving DecidableEq, Repr

/-- A file object as stored in filesByRoom: the handlers only read .id
and write .content. -/
structure FileRec where
  id : String
  content : Option String
deriving DecidableEq, Repr

/-- The module-level mutable state of server.ts. -/
structure ServerState where
  userSocketMap : List User
  filesByRoom : List (String × List FileRec)
  fileOwners : List (String × String)
  filePermissions : List (String × List (String × Perm))
deriving DecidableEq, Repr

/-- getUsersInRoom: userSocketMap.filter(u => u.roomId === roomId). -/
def getUsersInRoom (s : ServerState) (roomId : String) : List User :=
  s.userSocketMap.filter (fun u => u.roomId == roomId)

/-- getUserBySocketId: userSocketMap.find(u => u.socketId === socketId) ?? null. -/
def getUserBySocketId (s : ServerState) (socketId : String) : Option User :=
  s.userSocketMap.find? (fun u => u.socketId == socketId)

/-- getRoomId: userSocketMap.find(u => u.socketId === socketId)?.roomId ?? null. -/
def getRoomId (s : ServerState) (socketId : String) : Option String :=
  (getUserBySocketId s socketId).map (fun u => u.roomId)

/-- setOwner(fileId, username): record the owner and give that username
{ canEdit: true, canDelete: true }; no-op on an empty fileId. -/
def setOwner (s : ServerState) (fileId username : String) : ServerState :=
  if fileId == "" then s
  else
    let perms0 := (lookupA s.filePermissions fileId).getD []
    let perms1 := insertA perms0 username ⟨true, true⟩
    { s with
      fileOwners := insertA s.fileOwners fileId username
      filePermissions := insertA s.filePermissions fileId perms1 }

/-- isOwner(socket, fileId): the caller resolves to a user whose username
is the recorded owner. -/
def isOwner (s : ServerState) (sid fileId : String) : Bool :=
  match getUserBySocketId s sid with
  | none => false
  | some u =>
    match lookupA s.fileOwners fileId with
    | none => false
    | some owner => owner == u.username

/-- hasEditPermission: !!filePermissions[fileId]?.[user.username]?.canEdit. -/
def hasEditPermission (s : ServerState) (sid fileId : String) : Bool :=
  match getUserBySocketId s sid with
  | none => false
  | some u =>
    match lookupA s.filePermissions fileId with
    | none => false
    | some m =>
      match lookupA m u.username with
      | none => false
      | some p => p.canEdit

/-- hasDeletePermission: !!filePermissions[fileId]?.[user.username]?.canDelete. -/
def hasDeletePermission (s : ServerState) (sid fileId : String) : Bool :=
  match getUserBySocketId s sid with
  | none => false
  | some u =>
    match lookupA s.filePermissions fileId with
    | none => false
    | some m =>
      match lookupA m u.username with
      | none => false
      | some p => p.canDelete

/-- Where an emitted event goes: io.to(sid), io.in(roomId), or
socket.broadcast.to(roomId) from a given sender. -/
inductive Target where
  | socket (sid : String)
  | roomAll (roomId : String)
  | roomExcept (roomId : String) (sender : String)
deriving DecidableEq, Repr

/-- The payloads the modelled handlers emit. -/
inductive Payload where
  | empty
  | userJoined (user : User)
  | joinAccepted (user : User) (users : List User) (files : List FileRec)
  | userDisconnected (user : User)
  | permissionError (reason : String)
  | permissionRequest (fileId requester requestType message : String)
  | permissionRequestSent (fileId owner : String)
  | permissionDenied (action : String) (fileId : Option String)
  | permissionUpdated (fileId : String) (perms : PermsIn) (owner : Option String)
  | grantConfirmation (fileId targetUsername : String) (perms : PermsIn)
  | permissionRevoked (fileId : String)
  | revokeConfirmation (fileId targetUsername : String)
  | fileCreatedP (parentDirId : Option String) (newFile : FileRec) (createdBy : String)
  | fileUpdatedP (fileId newContent : String) (updatedBy : Option String)
  | fileDeletedP (fileId : String) (deletedBy : Option String)
deriving DecidableEq, Repr

/-- One emit call: a target, an event name and a payload. -/
structure Emit where
  target : Target
  event : String
  payload : Payload
deriving DecidableEq, Repr

/-- The acknowledgment value a handler passes to its callback. -/
inductive Ack where
  | joinOk (user : User) (users : List User) (files : List FileRec)
  | ok
  | fail (reason : String)
deriving DecidableEq, Repr

/-- Result of running one handler: the new state, the emits in order, and
the acknowledgment (none when the handler never calls the callback). -/
structure HResult where
  state : ServerState
  emits : List Emit
  ack : Option Ack
deriving DecidableEq, Repr

/-- The username resolution of the JOIN_REQUEST handler:
payload?.username || user-XXXXXX (the empty string is falsy in JS). -/
def resolveUsername (sid : String) (usernameIn : Option String) : String :=
  match usernameIn with
  | none => "user-" ++ jsSlice6 sid
  | some u => if u == "" then "user-" ++ jsSlice6 sid else u

/-- The User record the JOIN_REQUEST handler constructs. -/
def mkJoinUser (sid roomId username : String) : User :=
  ⟨username, roomId, true, 0, false, sid, none⟩

/-- The JOIN_REQUEST handler. roomId is String(payload?.roomId || "").trim();
username is payload?.username || a user-XXXXXX default from the socket id. -/
def joinRequest (s : ServerState) (sid : String)
    (roomIdIn usernameIn : Option String) : HResult :=
  let roomId := jsTrim (roomIdIn.getD "")
  let username := resolveUsername sid usernameIn
  if roomId == "" then
    ⟨s, [], some (.fail "invalid-room-id")⟩
  else if (getUsersInRoom s roomId).any (fun u => u.username == username) then
    ⟨s, [⟨.socket sid, "username-exists", .empty⟩], some (.fail "username-exists")⟩
  else
    let newUser : User := mkJoinUser sid roomId username
    let files0 :=
      match lookupA s.filesByRoom roomId with
      | some fs => fs
      | none => []
    let fbr1 :=
      match lookupA s.filesByRoom roomId with
      | some _ => s.filesByRoom
      | none => insertA s.filesByRoom roomId []
    let s1 : ServerState :=
      { s with
        userSocketMap := s.userSocketMap ++ [newUser]
        filesByRoom := fbr1 }
    ⟨s1,
     [⟨.roomExcept roomId sid, "user-joined", .userJoined newUser⟩,
      ⟨.socket sid, "join-accepted",
        .joinAccepted newUser (getUsersInRoom s1 roomId) files0⟩],
     some (.joinOk newUser (getUsersInRoom s1 roomId) files0)⟩

/-- The disconnecting handler: broadcast USER_DISCONNECTED to the user's
room, then drop the user from userSocketMap. -/
def disconnecting (s : ServerState) (sid : String) : HResult :=
  match getUserBySocketId s sid with
  | none => ⟨s, [], none⟩
  | some user =>
    ⟨{ s with userSocketMap := s.userSocketMap.filter (fun u => u.socketId != sid) },
     [⟨.roomExcept user.roomId sid, "user-disconnected", .userDisconnected user⟩],
     none⟩

/-- The grant-permission handler. -/
def grantPermission (s : ServerState) (sid fileId targetUsername : String)
    (perms : PermsIn) : HResult :=
  if isOwner s sid fileId then
    let entry : Perm := ⟨perms.canEdit.getD false, perms.canDelete.getD false⟩
    let perms0 := (lookupA s.filePermissions fileId).getD []
    let perms1 := insertA perms0 targetUsername entry
    let s1 : ServerState :=
      { s with filePermissions := insertA s.filePermissions fileId perms1 }
    let targetEmits :=
      match s.userSocketMap.find? (fun u => u.username == targetUsername) with
      | some t =>
        [⟨.socket t.socketId, "permission-updated",
          .permissionUpdated fileId perms (lookupA s.fileOwners fileId)⟩]
      | none => []
    ⟨s1,
     targetEmits ++
       [⟨.socket sid, "grant-confirmation",
         .grantConfirmation fileId targetUsername perms⟩],
     none⟩
  else
    ⟨s, [⟨.socket sid, "permission-denied", .permissionDenied "grant-permission" none⟩],
     none⟩

/-- The revoke-permission handler (a non-owner caller is rejected
silently: no emit, no state change). -/
def revokePermission (s : ServerState) (sid fileId targetUsername : String) : HResult :=
  if isOwner s sid fileId then
    let s1 : ServerState :=
      match lookupA s.filePermissions fileId with
      | none => s
      | some m =>
        let m1 := eraseA m targetUsername
        { s with filePermissions := insertA s.filePermissions fileId m1 }
    let targetEmits :=
      match s.userSocketMap.find? (fun u => u.username == targetUsername) with
      | some t => [⟨.socket t.socketId, "permission-revoked", .permissionRevoked fileId⟩]
      | none => []
    ⟨s1,
     targetEmits ++
       [⟨.socket sid, "revoke-confirmation", .revokeConfirmation fileId targetUsername⟩],
     none⟩
  else
    ⟨s, [], none⟩

/-- The FILE_CREATED handler: set ownership (unconditionally, before the
duplicate-id check on the room store), append the file to the room's list
when the id is new, broadcast to the whole room (including the sender). -/
def fileCreated (s : ServerState) (sid : String)
    (parentDirId : Option String) (newFile : Option FileRec) : HResult :=
  match getUserBySocketId s sid with
  | none => ⟨s, [], some (.fail "not-found")⟩
  | some user =>
    match newFile with
    | none => ⟨s, [], some (.fail "invalid-file")⟩
    | some f =>
      if f.id == "" then ⟨s, [], some (.fail "invalid-file")⟩
      else
        let s1 := setOwner s f.id user.username
        let roomId := user.roomId
        let files0 := (lookupA s1.filesByRoom roomId).getD []
        let files1 := if files0.any (fun g => g.id == f.id) then files0 else files0 ++ [f]
        let s2 : ServerState := { s1 with filesByRoom := insertA s1.filesByRoom roomId files1 }
        ⟨s2,
         [⟨.roomAll roomId, "file-created", .fileCreatedP parentDirId f user.username⟩],
         some .ok⟩

/-- The FILE_UPDATED handler: check canEdit, broadcast with io.in(roomId)
(the whole room), then update the stored content when the room tracks the
file. -/
def fileUpdated (s : ServerState) (sid fileId newContent : String) : HResult :=
  if hasEditPermission s sid fileId then
    let roomId := (getRoomId s sid).getD ""
    let emits :=
      [⟨Target.roomAll roomId, "file-updated",
        Payload.fileUpdatedP fileId newContent
          ((getUserBySocketId s sid).map (fun u => u.username))⟩]
    let s1 : ServerState :=
      match lookupA s.filesByRoom roomId with
      | none => s
      | some fs =>
        let fs1 := fs.map (fun f => if f.id == fileId then { f with content := some newContent } else f)
        { s with filesByRoom := insertA s.filesByRoom roomId fs1 }
    ⟨s1, emits, some .ok⟩
  else
    ⟨s, [⟨.socket sid, "permission-denied", .permissionDenied "file-updated" (some fileId)⟩],
     some (.fail "permission-denied")⟩

/-- The FILE_DELETED handler: check canDelete, broadcast with
io.in(roomId) (the whole room), then remove the file from the room's
list. fileOwners and filePermissions are not touched. -/
def fileDeleted (s : ServerState) (sid fileId : String) : HResult :=
  if hasDeletePermission s sid fileId then
    let roomId := (getRoomId s sid).getD ""
    let emits :=
      [⟨Target.roomAll roomId, "file-deleted",
        Payload.fileDeletedP fileId
          ((getUserBySocketId s sid).map (fun u => u.username))⟩]
    let s1 : ServerState :=
      match lookupA s.filesByRoom roomId with
      | none => s
      | some fs =>
        let fs1 := fs.filter (fun f => f.id != fileId)
        { s with filesByRoom := insertA s.filesByRoom roomId fs1 }
    ⟨s1, emits, some .ok⟩
  else
    ⟨s, [⟨.socket sid, "permission-denied", .permissionDenied "file-deleted" (some fileId)⟩],
     some (.fail "permission-denied")⟩

/-- The socket ids currently joined to a room (socket.join is issued
exactly for the users stored in userSocketMap). -/
def roomMemberIds (s : ServerState) (roomId : String) : List String :=
  (getUsersInRoom s roomId).map (fun u => u.socketId)

/-- Whether one emit is delivered to the connection sid, given the
membership state at dispatch time. -/
def deliveredTo (s : ServerState) (e : Emit) (sid : String) : Bool :=
  match e.target with
  | .socket t => t == sid
  | .roomAll r => (roomMemberIds s r).contains sid
  | .roomExcept r sender => sid != sender && (roomMemberIds s r).contains sid

/-- The permission-matrix read behind hasEditPermission, as a function of
the matrix and a username only (the handlers resolve the caller to a
username first). -/
def editRightOf (fps : List (String × List (String × Perm)))
    (username fileId : String) : Bool :=
  match lookupA fps fileId with
  | none => false
  | some m =>
    match lookupA m username with
    | none => false
    | some p => p.canEdit

/-- The permission-matrix read behind hasDeletePermission. -/
def deleteRightOf (fps : List (String × List (String × Perm)))
    (username fileId : String) : Bool :=
  match lookupA fps fileId with
  | none => false
  | some m =>
    match lookupA m username with
    | none => false
    | some p => p.canDelete

/-! ### Association-list lemmas -/

theorem find_key_map_self {α : Type} (m : List (String × α)) (k : String) (v : α)
    (h : (m.find? (fun p => p.1 == k)).isSome) :
    (m.map (fun p => if p.1 == k then (k, v) else p)).find? (fun p => p.1 == k)
      = some (k, v) := by
  induction m with
  | nil => simp at h
  | cons p t ih =>
    by_cases hp : p.1 = k
    · simp only [List.map_cons, List.find?_cons, hp, beq_self_eq_true, if_true]
    · have hp' : (p.1 == k) = false := beq_false_of_ne hp
      simp only [List.find?_cons, hp', Option.isSome] at h
      simp only [List.map_cons, List.find?_cons, hp', if_false, Bool.false_eq_true]
      exact ih h

theorem find_key_map_ne {α : Type} (m : List (String × α)) (k g : String) (v : α)
    (hg : g ≠ k) :
    (m.map (fun p => if p.1 == k then (k, v) else p)).find? (fun p => p.1 == g)
      = m.find? (fun p => p.1 == g) := by
  induction m with
  | nil => rfl
  | cons p t ih =>
    by_cases hp : p.1 = k
    · have hpg : (p.1 == g) = false := beq_false_of_ne (by rw [hp]; exact fun h => hg h.symm)
      have hkg : (k == g) = false := beq_false_of_ne (fun h => hg h.symm)
      simp only [List.map_cons, List.find?_cons, hp, beq_self_eq_true, if_true, hkg, hpg,
        Bool.false_eq_true]
      exact ih
    · have hp' : (p.1 == k) = false := beq_false_of_ne hp
      simp only [List.map_cons, List.find?_cons, hp', if_false, Bool.false_eq_true]
      cases hpg : (p.1 == g) with
      | true => rfl
      | false => exact ih

theorem map_replace_of_find_none {α : Type} (m : List (String × α)) (k : String) (v : α)
    (h : m.find? (fun p => p.1 == k) = none) :
    m.map (fun p => if p.1 == k then (k, v) else p) = m := by
  induction m with
  | nil => rfl
  | cons p t ih =>
    by_cases hp : p.1 = k
    · simp only [List.find?_cons, hp, beq_self_eq_true] at h
      exact Option.noConfusion h
    · have hp' : (p.1 == k) = false := beq_false_of_ne hp
      simp only [List.find?_cons, hp'] at h
      simp only [List.map_cons, hp', if_false, Bool.false_eq_true, List.cons.injEq]
      exact ⟨trivial, ih h⟩

theorem find_key_append_absent {α : Type} (m : List (String × α)) (k : String) (v : α)
    (h : m.find? (fun p => p.1 == k) = none) :
    (m ++ [(k, v)]).find? (fun p => p.1 == k) = some (k, v) := by
  induction m with
  | nil => simp
  | cons p t ih =>
    by_cases hp : p.1 = k
    · simp only [List.find?_cons, hp, beq_self_eq_true] at h
      exact Option.noConfusion h
    · have hp' : (p.1 == k) = false := beq_false_of_ne hp
      simp only [List.find?_cons, hp'] at h
      simp only [List.cons_append, List.find?_cons, hp', Bool.false_eq_true]
      exact ih h

theorem find_key_append_ne {α : Type} (m : List (String × α)) (k g : String) (v : α)
    (hg : g ≠ k) :
    (m ++ [(k, v)]).find? (fun p => p.1 == g) = m.find? (fun p => p.1 == g) := by
  induction m with
  | nil =>
    have hkg : (k == g) = false := beq_false_of_ne (fun h => hg h.symm)
    simp [hkg]
  | cons p t ih =>
    simp only [List.cons_append, List.find?_cons]
    cases hpg : (p.1 == g) with
    | true => rfl
    | false => exact ih

/-- Reading back the key just written returns the written value. -/
theorem lookupA_insertA_self {α : Type} (m : List (String × α)) (k : String) (v : α) :
    lookupA (insertA m k v) k = some v := by
  cases hfind : m.find? (fun p => p.1 == k) with
  | some p =>
    have hs : (m.find? (fun p => p.1 == k)).isSome := by rw [hfind]; rfl
    simp only [insertA, hfind, Option.isSome_some, if_true]
    rw [lookupA, find_key_map_self m k v hs]
    rfl
  | none =>
    simp only [insertA, hfind, Option.isSome_none, Bool.false_eq_true, if_false]
    rw [lookupA, find_key_append_absent m k v hfind]
    rfl

/-- Writing one key leaves every other key unchanged. -/
theorem lookupA_insertA_ne {α : Type} (m : List (String × α)) (k g : String) (v : α)
    (hg : g ≠ k) :
    lookupA (insertA m k v) g = lookupA m g := by
  cases hfind : m.find? (fun p => p.1 == k) with
  | some p =>
    simp only [insertA, hfind, Option.isSome_some, if_true]
    rw [lookupA, find_key_map_ne m k g v hg]
    rfl
  | none =>
    simp only [insertA, hfind, Option.isSome_none, Bool.false_eq_true, if_false]
    rw [lookupA, find_key_append_ne m k g v hg]
    rfl

/-- Overwriting a key twice is the same as writing it once. -/
theorem insertA_insertA_same {α : Type} (m : List (String × α)) (k : String) (v w : α) :
    insertA (insertA m k v) k w = insertA m k w := by
  cases hfind : m.find? (fun p => p.1 == k) with
  | some p =>
    have hs : (m.find? (fun p => p.1 == k)).isSome := by rw [hfind]; rfl
    have h2 := find_key_map_self m k v hs
    simp only [insertA, hfind, Option.isSome_some, if_true, h2, List.map_map]
    apply List.map_congr_left
    intro q _
    by_cases hq : q.1 = k <;> simp [hq]
  | none =>
    have h2 := find_key_append_absent m k v hfind
    simp only [insertA, hfind, Option.isSome_none, Bool.false_eq_true, if_false, h2,
      Option.isSome_some, if_true, List.map_append]
    rw [map_replace_of_find_none m k w hfind]
    simp

/-- Deleting an absent key is a no-op. -/
theorem eraseA_eq_self {α : Type} (m : List (String × α)) (k : String)
    (h : lookupA m k = none) : eraseA m k = m := by
  unfold eraseA
  apply List.filter_eq_self.mpr
  intro p hp
  unfold lookupA at h
  rcases hf : m.find? (fun q => q.1 == k) with _ | q
  · have := List.find?_eq_none.mp hf p hp
    simpa using this
  · simp [hf] at h

/-- Deleting one key leaves every other key unchanged. -/
theorem lookupA_eraseA_ne {α : Type} (m : List (String × α)) (k g : String)
    (hg : g ≠ k) : lookupA (eraseA m k) g = lookupA m g := by
  induction m with
  | nil => rfl
  | cons p t ih =>
    by_cases hp : p.1 = k
    · have hpk : (p.1 != k) = false := by simp [hp]
      have hpg : (p.1 == g) = false := beq_false_of_ne (by rw [hp]; exact fun h => hg h.symm)
      simp only [eraseA, List.filter_cons, hpk, Bool.false_eq_true, if_false]
      unfold eraseA at ih
      rw [ih, lookupA, lookupA, List.find?_cons, hpg]
    · have hpk : (p.1 != k) = true := by simp [hp]
      simp only [eraseA, List.filter_cons, hpk, if_true]
      unfold eraseA at ih
      unfold lookupA
      rw [List.find?_cons, List.find?_cons]
      cases hpg : (p.1 == g) with
      | true => rfl
      | false => exact ih

/-- Appending a record to a list in which the predicate has no match makes
that record the find? result, provided it matches. -/
theorem find_user_append (l : List User) (u : User) (q : User → Bool)
    (h : l.find? q = none) (hu : q u = true) :
    (l ++ [u]).find? q = some u := by
  induction l with
  | nil => simp [List.find?_cons, hu]
  | cons p t ih =>
    rw [List.find?_cons] at h
    cases hp : q p with
    | true => rw [hp] at h; exact Option.noConfusion h
    | false =>
      rw [hp] at h
      simp only [List.cons_append, List.find?_cons, hp, Bool.false_eq_true]
      exact ih h

/-- isOwner reads only userSocketMap and fileOwners. -/
theorem isOwner_state_congr (s1 s2 : ServerState) (sid fid : String)
    (h1 : s1.userSocketMap = s2.userSocketMap) (h2 : s1.fileOwners = s2.fileOwners) :
    isOwner s1 sid fid = isOwner s2 sid fid := by
  unfold isOwner getUserBySocketId
  rw [h1, h2]

/-- hasEditPermission factors through the username the socket resolves to. -/
theorem hasEditPermission_eq (s : ServerState) (sid fid : String) :
    hasEditPermission s sid fid =
      match getUserBySocketId s sid with
      | none => false
      | some u => editRightOf s.filePermissions u.username fid := rfl

/-- hasDeletePermission factors through the username the socket resolves to. -/
theorem hasDeletePermission_eq (s : ServerState) (sid fid : String) :
    hasDeletePermission s sid fid =
      match getUserBySocketId s sid with
      | none => false
      | some u => deleteRightOf s.filePermissions u.username fid := rfl

/-- The default username the JOIN_REQUEST handler generates is never the
empty string. -/
theorem default_username_ne_empty (sid : String) : ("user-" ++ jsSlice6 sid) ≠ "" := by
  intro h
  have hl := congrArg String.length h
  rw [String.length_append] at hl
  have h5 : ("user-").length = 5 := rfl
  rw [h5] at hl
  simp at hl

/-- The state produced by an owner's grant-permission call, spelled out. -/
theorem grant_state_eq (s : ServerState) (sid fileId tgt : String) (pi : PermsIn)
    (how : isOwner s sid fileId = true) :
    (grantPermission s sid fileId tgt pi).state = { s with filePermissions := insertA s.filePermissions fileId (insertA ((lookupA s.filePermissions fileId).getD []) tgt ⟨pi.canEdit.getD false, pi.canDelete.getD false⟩) } := by
  simp [grantPermission, how]

/-- A successful join appends the new User and touches neither the
ownership map nor the permission matrix. -/
theorem join_success_state (s : ServerState) (sid : String)
    (roomIdIn usernameIn : Option String)
    (hroom : jsTrim (roomIdIn.getD "") ≠ "")
    (hcol : (getUsersInRoom s (jsTrim (roomIdIn.getD ""))).any
      (fun u => u.username == resolveUsername sid usernameIn) = false) :
    (joinRequest s sid roomIdIn usernameIn).state.userSocketMap
      = s.userSocketMap
          ++ [mkJoinUser sid (jsTrim (roomIdIn.getD "")) (resolveUsername sid usernameIn)] ∧
    (joinRequest s sid roomIdIn usernameIn).state.fileOwners = s.fileOwners ∧
    (joinRequest s sid roomIdIn usernameIn).state.filePermissions = s.filePermissions := by
  have hb : (jsTrim (roomIdIn.getD "") == "") = false := beq_false_of_ne hroom
  refine ⟨?_, ?_, ?_⟩ <;> simp [joinRequest, hb, hcol]

/-- The ownership and permission writes a successful FILE_CREATED
performs, spelled out. -/
theorem fileCreated_state_eq (s : ServerState) (sid : String) (pd : Option String)
    (nf : FileRec) (u : User) (hu : getUserBySocketId s sid = some u) (hnf : nf.id ≠ "") :
    (fileCreated s sid pd (some nf)).state.fileOwners
      = insertA s.fileOwners nf.id u.username ∧
    (fileCreated s sid pd (some nf)).state.filePermissions
      = insertA s.filePermissions nf.id
          (insertA ((lookupA s.filePermissions nf.id).getD []) u.username ⟨true, true⟩) := by
  have hbne : (nf.id == "") = false := beq_false_of_ne hnf
  constructor <;> simp [fileCreated, hu, hbne, setOwner]

/-- editRightOf as a composite map read. -/
theorem editRightOf_eq_getD (fps : List (String × List (String × Perm))) (w f : String) :
    editRightOf fps w f
      = ((lookupA ((lookupA fps f).getD []) w).map Perm.canEdit).getD false := by
  unfold editRightOf
  cases lookupA fps f with
  | none => rfl
  | some m =>
    simp only [Option.getD_some]
    cases lookupA m w <;> rfl

/-- deleteRightOf as a composite map read. -/
theorem deleteRightOf_eq_getD (fps : List (String × List (String × Perm))) (w f : String) :
    deleteRightOf fps w f
      = ((lookupA ((lookupA fps f).getD []) w).map Perm.canDelete).getD false := by
  unfold deleteRightOf
  cases lookupA fps f with
  | none => rfl
  | some m =>
    simp only [Option.getD_some]
    cases lookupA m w <;> rfl

/-- A grant-permission call never changes the stored permission entry of
any username other than its target. -/
theorem grant_lookup_preserved (s : ServerState) (sid2 fid tgt w f : String)
    (pi : PermsIn) (hw : w ≠ tgt) :
    lookupA ((lookupA (grantPermission s sid2 fid tgt pi).state.filePermissions f).getD []) w
      = lookupA ((lookupA s.filePermissions f).getD []) w := by
  cases how : isOwner s sid2 fid with
  | false => simp [grantPermission, how]
  | true =>
    rw [grant_state_eq s sid2 fid tgt pi how]
    dsimp only
    by_cases hf : f = fid
    · subst hf
      rw [lookupA_insertA_self, Option.getD_some, lookupA_insertA_ne _ _ _ _ hw]
    · rw [lookupA_insertA_ne _ _ _ _ hf]

/-- A revoke-permission call never changes the stored permission entry of
any username other than its target. -/
theorem revoke_lookup_preserved (s : ServerState) (sid2 fid tgt w f : String)
    (hw : w ≠ tgt) :
    lookupA ((lookupA (revokePermission s sid2 fid tgt).state.filePermissions f).getD []) w
      = lookupA ((lookupA s.filePermissions f).getD []) w := by
  cases how : isOwner s sid2 fid with
  | false => simp [revokePermission, how]
  | true =>
    simp only [revokePermission, how, if_true]
    cases hfps : lookupA s.filePermissions fid with
    | none => rfl
    | some m =>
      dsimp only
      by_cases hf : f = fid
      · subst hf
        rw [lookupA_insertA_self, Option.getD_some, hfps, Option.getD_some,
          lookupA_eraseA_ne m tgt w hw]
      · rw [lookupA_insertA_ne _ _ _ _ hf]

/-- The socket a user record resolves to is a member of the user's room. -/
theorem sender_in_room (s : ServerState) (sid : String) (u : User)
    (hu : getUserBySocketId s sid = some u) :
    (roomMemberIds s u.roomId).contains sid = true := by
  have hmem : u ∈ s.userSocketMap := List.mem_of_find?_eq_some hu
  have hsid : u.socketId = sid := by
    have := List.find?_some hu
    simpa using this
  have hroom : u ∈ getUsersInRoom s u.roomId := by
    unfold getUsersInRoom
    exact List.mem_filter.mpr ⟨hmem, by simp⟩
  have hin : sid ∈ roomMemberIds s u.roomId := by
    unfold roomMemberIds
    rw [← hsid]
    exact List.mem_map_of_mem _ hroom
  exact List.elem_eq_true_of_mem hin

/-- Every member of a room is contained in the room's socket-id list. -/
theorem member_in_room (s : ServerState) (rid : String) (m : User)
    (hm : m ∈ getUsersInRoom s rid) :
    (roomMemberIds s rid).contains m.socketId = true :=
  List.elem_eq_true_of_mem (List.mem_map_of_mem _ hm)

/-! ### Concrete fixtures for witnesses and counterexamples -/

/-- alice, joined to room r1 on connection A. -/
def aliceU : User := ⟨"alice", "r1", true, 0, false, "A", none⟩

/-- bob, joined to room r1 on connection B. -/
def bobU : User := ⟨"bob", "r1", true, 0, false, "B", none⟩

/-- A state with alice and bob joined to r1 and no files yet. -/
def sAB : ServerState := ⟨[aliceU, bobU], [("r1", [])], [], []⟩

/-- sAB after alice creates file f1 (alice owns f1). -/
def sOwned : ServerState := (fileCreated sAB "A" none (some ⟨"f1", none⟩)).state

/-! ### Claim theorems -/

/-- C6: a FILE_UPDATED request whose caller lacks canEdit on the named
file produces exactly one direct permission-denied emit to the caller
(carrying the action name "file-updated" and the file id) and a failure
acknowledgment, and leaves the whole coordinator state unchanged (no
broadcast is sent to the room). -/
theorem C6_fileUpdated_denied (s : ServerState) (sid fileId newContent : String)
    (h : hasEditPermission s sid fileId = false) :
    fileUpdated s sid fileId newContent =
      ⟨s, [⟨.socket sid, "permission-denied", .permissionDenied "file-updated" (some fileId)⟩],
       some (.fail "permission-denied")⟩ := by
  simp [fileUpdated, h]

/-- C6 witness: bob has no canEdit on f1, so his FILE_UPDATED is rejected
without touching the state. -/
theorem C6_fileUpdated_denied_witness :
    fileUpdated sAB "B" "f1" "x" =
      ⟨sAB, [⟨.socket "B", "permission-denied", .permissionDenied "file-updated" (some "f1")⟩],
       some (.fail "permission-denied")⟩ :=
  C6_fileUpdated_denied sAB "B" "f1" "x" (by decide)

/-- C5: a join request whose resolved username is already taken in the
(trimmed, non-empty) room fails with the username-exists direct event and
a failure acknowledgment, creates no User, and leaves the state (hence
the room's membership) exactly as before. -/
theorem C5_join_username_taken (s : ServerState) (sid : String)
    (roomIdIn usernameIn : Option String)
    (hroom : jsTrim (roomIdIn.getD "") ≠ "")
    (hex : (getUsersInRoom s (jsTrim (roomIdIn.getD ""))).any
      (fun u => u.username == resolveUsername sid usernameIn) = true) :
    joinRequest s sid roomIdIn usernameIn =
      ⟨s, [⟨.socket sid, "username-exists", .empty⟩], some (.fail "username-exists")⟩ := by
  have hb : (jsTrim (roomIdIn.getD "") == "") = false := beq_false_of_ne hroom
  simp [joinRequest, hb, hex]

/-- C5 witness: a second join into r1 with the username alice is rejected
and sAB is unchanged. -/
theorem C5_join_username_taken_witness :
    joinRequest sAB "C" (some "r1") (some "alice") =
      ⟨sAB, [⟨.socket "C", "username-exists", .empty⟩], some (.fail "username-exists")⟩ :=
  C5_join_username_taken sAB "C" (some "r1") (some "alice") (by decide) (by decide)

/-- C7: a grant-permission call by a caller who is not the recorded owner
fails with a direct permission-denied event and mutates no state at all;
a grant by the owner fully replaces the target's permission entry with
{ canEdit, canDelete }, any omitted field read as false (no merge with a
previous entry). -/
theorem C7_grant_owner_gate (s : ServerState) (sid fileId tgt : String) (pi : PermsIn) :
    (isOwner s sid fileId = false →
      grantPermission s sid fileId tgt pi =
        ⟨s, [⟨.socket sid, "permission-denied", .permissionDenied "grant-permission" none⟩],
         none⟩) ∧
    (isOwner s sid fileId = true →
      lookupA ((lookupA (grantPermission s sid fileId tgt pi).state.filePermissions fileId).getD [])
          tgt
        = some ⟨pi.canEdit.getD false, pi.canDelete.getD false⟩) := by
  constructor
  · intro h
    simp [grantPermission, h]
  · intro h
    simp only [grantPermission, h, if_true]
    rw [lookupA_insertA_self]
    simp only [Option.getD_some]
    rw [lookupA_insertA_self]

/-- C7 witness: alice owns f1; granting bob { canEdit: true } (canDelete
omitted) stores exactly { canEdit: true, canDelete: false }. -/
theorem C7_grant_owner_gate_witness :
    lookupA ((lookupA (grantPermission sOwned "A" "f1" "bob" ⟨some true, none⟩).state.filePermissions
        "f1").getD []) "bob" = some ⟨true, false⟩ :=
  (C7_grant_owner_gate sOwned "A" "f1" "bob" ⟨some true, none⟩).2 (by decide)

/-- C8: with the owner as caller, revoking a permission entry that was
never granted changes no permission lookup and no other component of the
state, yet still emits the revoke-confirmation success event to the
owner; and issuing the same grant twice in succession leaves exactly the
state of issuing it once. -/
theorem C8_revoke_noop_grant_idempotent (s : ServerState) (sid fileId tgt : String)
    (pi : PermsIn) (how : isOwner s sid fileId = true) :
    (lookupA ((lookupA s.filePermissions fileId).getD []) tgt = none →
      (∀ g, lookupA (revokePermission s sid fileId tgt).state.filePermissions g
          = lookupA s.filePermissions g) ∧
      (revokePermission s sid fileId tgt).state.userSocketMap = s.userSocketMap ∧
      (revokePermission s sid fileId tgt).state.fileOwners = s.fileOwners ∧
      (revokePermission s sid fileId tgt).state.filesByRoom = s.filesByRoom ∧
      ⟨.socket sid, "revoke-confirmation", .revokeConfirmation fileId tgt⟩
        ∈ (revokePermission s sid fileId tgt).emits) ∧
    (grantPermission (grantPermission s sid fileId tgt pi).state sid fileId tgt pi).state
      = (grantPermission s sid fileId tgt pi).state := by
  constructor
  · intro habs
    cases hfps : lookupA s.filePermissions fileId with
    | none =>
      simp only [revokePermission, how, if_true, hfps]
      exact ⟨by simp, by trivial, by trivial, by trivial, by simp⟩
    | some m =>
      rw [hfps] at habs
      simp only [Option.getD_some] at habs
      have herase : eraseA m tgt = m := eraseA_eq_self m tgt habs
      simp only [revokePermission, how, if_true, hfps, herase]
      refine ⟨?_, by trivial, by trivial, by trivial, by simp⟩
      intro g
      by_cases hg : g = fileId
      · subst hg
        rw [lookupA_insertA_self, hfps]
      · exact lookupA_insertA_ne _ _ _ _ hg
  · have hs1 := grant_state_eq s sid fileId tgt pi how
    have how2 : isOwner (grantPermission s sid fileId tgt pi).state sid fileId = true := by
      rw [isOwner_state_congr _ s sid fileId (by rw [hs1]) (by rw [hs1])]
      exact how
    have hs2 := grant_state_eq (grantPermission s sid fileId tgt pi).state sid fileId tgt pi how2
    rw [hs2, hs1]
    simp only [lookupA_insertA_self, Option.getD_some, insertA_insertA_same]

/-- C8 witness: alice owns f1; granting bob the same entry twice in a row
gives exactly the state of granting it once. -/
theorem C8_revoke_noop_grant_idempotent_witness :
    (grantPermission (grantPermission sOwned "A" "f1" "bob" ⟨some true, some false⟩).state
        "A" "f1" "bob" ⟨some true, some false⟩).state
      = (grantPermission sOwned "A" "f1" "bob" ⟨some true, some false⟩).state :=
  (C8_revoke_noop_grant_idempotent sOwned "A" "f1" "bob" ⟨some true, some false⟩ (by decide)).2

/-- C9: a join request with a non-empty (trimmed) roomId and no username
in the payload is not rejected for the missing username: it behaves
exactly like a join with the username user- followed by the first six
characters of the socket id, and when that name is free in the room the
normal flow runs (User created and appended, user-joined broadcast to the
room except the sender, join-accepted direct event, success
acknowledgment). -/
theorem C9_join_default_username (s : ServerState) (sid r : String)
    (hr : jsTrim r ≠ "")
    (hcol : (getUsersInRoom s (jsTrim r)).any
      (fun u => u.username == "user-" ++ jsSlice6 sid) = false) :
    (joinRequest s sid (some r) none
      = joinRequest s sid (some r) (some ("user-" ++ jsSlice6 sid))) ∧
    ((joinRequest s sid (some r) none).state.userSocketMap
      = s.userSocketMap ++ [mkJoinUser sid (jsTrim r) ("user-" ++ jsSlice6 sid)]) ∧
    ((joinRequest s sid (some r) none).emits =
      [⟨.roomExcept (jsTrim r) sid, "user-joined",
        .userJoined (mkJoinUser sid (jsTrim r) ("user-" ++ jsSlice6 sid))⟩,
       ⟨.socket sid, "join-accepted",
        .joinAccepted (mkJoinUser sid (jsTrim r) ("user-" ++ jsSlice6 sid))
          (getUsersInRoom s (jsTrim r) ++ [mkJoinUser sid (jsTrim r) ("user-" ++ jsSlice6 sid)])
          ((lookupA s.filesByRoom (jsTrim r)).getD [])⟩]) ∧
    ((joinRequest s sid (some r) none).ack =
      some (.joinOk (mkJoinUser sid (jsTrim r) ("user-" ++ jsSlice6 sid))
        (getUsersInRoom s (jsTrim r) ++ [mkJoinUser sid (jsTrim r) ("user-" ++ jsSlice6 sid)])
        ((lookupA s.filesByRoom (jsTrim r)).getD []))) := by
  have hres : resolveUsername sid (some ("user-" ++ jsSlice6 sid)) = "user-" ++ jsSlice6 sid := by
    simp [resolveUsername, beq_false_of_ne (default_username_ne_empty sid)]
  have hres0 : resolveUsername sid none = "user-" ++ jsSlice6 sid := rfl
  have hb : (jsTrim r == "") = false := beq_false_of_ne hr
  have husers : getUsersInRoom
      { s with userSocketMap := s.userSocketMap ++ [mkJoinUser sid (jsTrim r) ("user-" ++ jsSlice6 sid)] }
      (jsTrim r)
      = getUsersInRoom s (jsTrim r) ++ [mkJoinUser sid (jsTrim r) ("user-" ++ jsSlice6 sid)] := by
    unfold getUsersInRoom mkJoinUser
    rw [List.filter_append]
    simp
  refine ⟨?_, ?_, ?_, ?_⟩
  · unfold joinRequest
    rw [hres, hres0]
  · simp only [joinRequest, Option.getD_some, hres0, hb, Bool.false_eq_true, if_false, hcol]
  · rcases hlf : lookupA s.filesByRoom (jsTrim r) with _ | fs
    · simp only [joinRequest, Option.getD_some, hres0, hb, Bool.false_eq_true, if_false, hcol, hlf,
        Option.getD_none]
      rw [show getUsersInRoom { s with userSocketMap := s.userSocketMap ++ [mkJoinUser sid (jsTrim r) ("user-" ++ jsSlice6 sid)], filesByRoom := insertA s.filesByRoom (jsTrim r) [] } (jsTrim r) = getUsersInRoom { s with userSocketMap := s.userSocketMap ++ [mkJoinUser sid (jsTrim r) ("user-" ++ jsSlice6 sid)] } (jsTrim r) from rfl, husers]
    · simp only [joinRequest, Option.getD_some, hres0, hb, Bool.false_eq_true, if_false, hcol, hlf]
      rw [husers]
  · rcases hlf : lookupA s.filesByRoom (jsTrim r) with _ | fs
    · simp only [joinRequest, Option.getD_some, hres0, hb, Bool.false_eq_true, if_false, hcol, hlf,
        Option.getD_none]
      rw [show getUsersInRoom { s with userSocketMap := s.userSocketMap ++ [mkJoinUser sid (jsTrim r) ("user-" ++ jsSlice6 sid)], filesByRoom := insertA s.filesByRoom (jsTrim r) [] } (jsTrim r) = getUsersInRoom { s with userSocketMap := s.userSocketMap ++ [mkJoinUser sid (jsTrim r) ("user-" ++ jsSlice6 sid)] } (jsTrim r) from rfl, husers]
    · simp only [joinRequest, Option.getD_some, hres0, hb, Bool.false_eq_true, if_false, hcol, hlf]
      rw [husers]

/-- C9 witness: a join into r1 from socket ABCDEFGH with no username
creates the user user-ABCDEF and acknowledges success. -/
theorem C9_join_default_username_witness :
    (joinRequest sAB "ABCDEFGH" (some "r1") none).state.userSocketMap
      = sAB.userSocketMap ++ [mkJoinUser "ABCDEFGH" (jsTrim "r1") ("user-" ++ jsSlice6 "ABCDEFGH")] :=
  (C9_join_default_username sAB "ABCDEFGH" "r1" (by decide) (by decide)).2.1

/-- C10: processing a disconnect removes exactly the User bound to the
socket and nothing else: the ownership map, the permission matrix and the
room file stores are untouched, and a connection that later joins any
room with the same username resolves to exactly the edit/delete rights
and sees the same ownership that were recorded for that username before
the disconnect. -/
theorem C10_disconnect_preserves_rights (s : ServerState) (sid sid2 r un fid : String)
    (hr : jsTrim r ≠ "") (hun : un ≠ "")
    (hfresh : getUserBySocketId (disconnecting s sid).state sid2 = none)
    (hcol : (getUsersInRoom (disconnecting s sid).state (jsTrim r)).any
      (fun u => u.username == un) = false) :
    ((disconnecting s sid).state.fileOwners = s.fileOwners) ∧
    ((disconnecting s sid).state.filePermissions = s.filePermissions) ∧
    ((disconnecting s sid).state.filesByRoom = s.filesByRoom) ∧
    ((disconnecting s sid).state.userSocketMap
      = s.userSocketMap.filter (fun u => u.socketId != sid)) ∧
    (hasEditPermission (joinRequest (disconnecting s sid).state sid2 (some r) (some un)).state
        sid2 fid = editRightOf s.filePermissions un fid) ∧
    (hasDeletePermission (joinRequest (disconnecting s sid).state sid2 (some r) (some un)).state
        sid2 fid = deleteRightOf s.filePermissions un fid) ∧
    ((joinRequest (disconnecting s sid).state sid2 (some r) (some un)).state.fileOwners
      = s.fileOwners) := by
  have hres : resolveUsername sid2 (some un) = un := by
    simp [resolveUsername, beq_false_of_ne hun]
  have hcomp : (disconnecting s sid).state.fileOwners = s.fileOwners ∧
      (disconnecting s sid).state.filePermissions = s.filePermissions ∧
      (disconnecting s sid).state.filesByRoom = s.filesByRoom ∧
      (disconnecting s sid).state.userSocketMap
        = s.userSocketMap.filter (fun u => u.socketId != sid) := by
    cases hu : getUserBySocketId s sid with
    | none =>
      have hall : s.userSocketMap.filter (fun u => u.socketId != sid) = s.userSocketMap := by
        apply List.filter_eq_self.mpr
        intro u hmem
        have := List.find?_eq_none.mp hu u hmem
        simpa using this
      simp only [disconnecting, hu, hall]
      exact ⟨by trivial, by trivial, by trivial, by trivial⟩
    | some u =>
      simp only [disconnecting, hu]
      exact ⟨by trivial, by trivial, by trivial, by trivial⟩
  have hroom' : jsTrim ((some r : Option String).getD "") ≠ "" := by
    simpa using hr
  have hcol' : (getUsersInRoom (disconnecting s sid).state
      (jsTrim ((some r : Option String).getD ""))).any
      (fun u => u.username == resolveUsername sid2 (some un)) = false := by
    simpa [hres] using hcol
  obtain ⟨hjm, hjo, hjp⟩ :=
    join_success_state (disconnecting s sid).state sid2 (some r) (some un) hroom' hcol'
  have hfind : getUserBySocketId
      (joinRequest (disconnecting s sid).state sid2 (some r) (some un)).state sid2
      = some (mkJoinUser sid2 (jsTrim ((some r : Option String).getD ""))
          (resolveUsername sid2 (some un))) := by
    unfold getUserBySocketId at hfresh ⊢
    rw [hjm]
    exact find_user_append _ _ _ hfresh (by simp [mkJoinUser])
  refine ⟨hcomp.1, hcomp.2.1, hcomp.2.2.1, hcomp.2.2.2, ?_, ?_, ?_⟩
  · rw [hasEditPermission_eq, hfind]
    simp only [hjp, hcomp.2.1, hres, mkJoinUser]
  · rw [hasDeletePermission_eq, hfind]
    simp only [hjp, hcomp.2.1, hres, mkJoinUser]
  · rw [hjo, hcomp.1]

/-- C10 witness: after alice (socket A) disconnects from sOwned, a new
socket A2 joining r2 as alice still passes the canEdit check on f1. -/
theorem C10_disconnect_preserves_rights_witness :
    hasEditPermission
      (joinRequest (disconnecting sOwned "A").state "A2" (some "r2") (some "alice")).state
      "A2" "f1" = editRightOf sOwned.filePermissions "alice" "f1" :=
  (C10_disconnect_preserves_rights sOwned "A" "A2" "r2" "alice" "f1"
    (by decide) (by decide) (by decide) (by decide)).2.2.2.2.1

/-- C1 counterexample: alice creates f1 (owner alice); a later
FILE_CREATED for the same id f1 from bob's connection overwrites the
recorded owner with bob, so the stored owner does change after creation. -/
theorem C1_counterexample_owner_overwritten :
    lookupA sOwned.fileOwners "f1" = some "alice" ∧
    lookupA (fileCreated sOwned "B" none (some ⟨"f1", none⟩)).state.fileOwners "f1"
      = some "bob" := by decide

/-- C1 (amended): no operation other than FILE_CREATED ever changes the
ownership map; a FILE_CREATED for id nf.id from a joined caller writes
that caller's username as owner (overwriting any previous owner — last
writer wins) and leaves the owner of every other id unchanged. -/
theorem C1_owner_changed_only_by_fileCreated (s : ServerState)
    (sid fid tgt c g : String) (pi : PermsIn) (pd : Option String)
    (nf : FileRec) (u : User) (rIn uIn : Option String)
    (hu : getUserBySocketId s sid = some u) (hnf : nf.id ≠ "") (hg : g ≠ nf.id) :
    ((joinRequest s sid rIn uIn).state.fileOwners = s.fileOwners) ∧
    ((disconnecting s sid).state.fileOwners = s.fileOwners) ∧
    ((grantPermission s sid fid tgt pi).state.fileOwners = s.fileOwners) ∧
    ((revokePermission s sid fid tgt).state.fileOwners = s.fileOwners) ∧
    ((fileUpdated s sid fid c).state.fileOwners = s.fileOwners) ∧
    ((fileDeleted s sid fid).state.fileOwners = s.fileOwners) ∧
    (lookupA (fileCreated s sid pd (some nf)).state.fileOwners nf.id = some u.username) ∧
    (lookupA (fileCreated s sid pd (some nf)).state.fileOwners g = lookupA s.fileOwners g) := by
  obtain ⟨hoeq, -⟩ := fileCreated_state_eq s sid pd nf u hu hnf
  refine ⟨?_, ?_, ?_, ?_, ?_, ?_, ?_, ?_⟩
  · unfold joinRequest
    dsimp only
    split
    · rfl
    · split <;> rfl
  · unfold disconnecting
    cases getUserBySocketId s sid <;> rfl
  · unfold grantPermission
    dsimp only
    split <;> rfl
  · unfold revokePermission
    dsimp only
    split
    · dsimp only
      split <;> rfl
    · rfl
  · unfold fileUpdated
    dsimp only
    split
    · dsimp only
      split <;> rfl
    · rfl
  · unfold fileDeleted
    dsimp only
    split
    · dsimp only
      split <;> rfl
    · rfl
  · rw [hoeq, lookupA_insertA_self]
  · rw [hoeq, lookupA_insertA_ne _ _ _ _ hg]

/-- C1 witness: in sAB, a FILE_CREATED for f1 from alice's connection
records alice as owner of f1. -/
theorem C1_owner_changed_only_by_fileCreated_witness :
    lookupA (fileCreated sAB "A" none (some ⟨"f1", none⟩)).state.fileOwners "f1"
      = some "alice" :=
  (C1_owner_changed_only_by_fileCreated sAB "A" "x" "t" "c" "g" ⟨none, none⟩ none
    ⟨"f1", none⟩ aliceU none none (by decide) (by decide) (by decide)).2.2.2.2.2.2.1

/-- C2 counterexample: alice owns f1, and after she revokes the entry for
her own username she is still the recorded owner but both permission
checks answer false — the owner does not always hold canEdit/canDelete. -/
theorem C2_counterexample_owner_loses_rights :
    lookupA (revokePermission sOwned "A" "f1" "alice").state.fileOwners "f1" = some "alice" ∧
    hasEditPermission (revokePermission sOwned "A" "f1" "alice").state "A" "f1" = false ∧
    hasDeletePermission (revokePermission sOwned "A" "f1" "alice").state "A" "f1" = false := by
  decide

/-- C2 (amended): resource creation stores { canEdit: true, canDelete:
true } for the creator, and grant/revoke calls targeting any username
other than w leave w's stored rights on every resource unchanged; but
the permission checks read only the stored entry (there is no implicit
owner right), so a grant or revoke whose target is the owner's own
username — which the owner can issue — does change or remove the owner's
rights. -/
theorem C2_owner_rights_from_stored_entry (s : ServerState)
    (sid sid2 fid tgt w f : String) (pi : PermsIn) (pd : Option String)
    (nf : FileRec) (u : User)
    (hu : getUserBySocketId s sid = some u) (hnf : nf.id ≠ "") (hw : w ≠ tgt) :
    (editRightOf (fileCreated s sid pd (some nf)).state.filePermissions u.username nf.id
      = true) ∧
    (deleteRightOf (fileCreated s sid pd (some nf)).state.filePermissions u.username nf.id
      = true) ∧
    (editRightOf (grantPermission s sid2 fid tgt pi).state.filePermissions w f
      = editRightOf s.filePermissions w f) ∧
    (deleteRightOf (grantPermission s sid2 fid tgt pi).state.filePermissions w f
      = deleteRightOf s.filePermissions w f) ∧
    (editRightOf (revokePermission s sid2 fid tgt).state.filePermissions w f
      = editRightOf s.filePermissions w f) ∧
    (deleteRightOf (revokePermission s sid2 fid tgt).state.filePermissions w f
      = deleteRightOf s.filePermissions w f) := by
  obtain ⟨-, hpeq⟩ := fileCreated_state_eq s sid pd nf u hu hnf
  refine ⟨?_, ?_, ?_, ?_, ?_, ?_⟩
  · rw [editRightOf_eq_getD, hpeq, lookupA_insertA_self, Option.getD_some,
      lookupA_insertA_self]
    rfl
  · rw [deleteRightOf_eq_getD, hpeq, lookupA_insertA_self, Option.getD_some,
      lookupA_insertA_self]
    rfl
  · rw [editRightOf_eq_getD, editRightOf_eq_getD,
      grant_lookup_preserved s sid2 fid tgt w f pi hw]
  · rw [deleteRightOf_eq_getD, deleteRightOf_eq_getD,
      grant_lookup_preserved s sid2 fid tgt w f pi hw]
  · rw [editRightOf_eq_getD, editRightOf_eq_getD,
      revoke_lookup_preserved s sid2 fid tgt w f hw]
  · rw [deleteRightOf_eq_getD, deleteRightOf_eq_getD,
      revoke_lookup_preserved s sid2 fid tgt w f hw]

/-- C2 witness: creating f1 from alice's connection stores canEdit for
alice, and bob-targeted grants do not change alice's stored rights. -/
theorem C2_owner_rights_from_stored_entry_witness :
    editRightOf (fileCreated sAB "A" none (some ⟨"f1", none⟩)).state.filePermissions
      "alice" "f1" = true :=
  (C2_owner_rights_from_stored_entry sAB "A" "B" "f1" "bob" "alice" "f1" ⟨none, none⟩ none
    ⟨"f1", none⟩ aliceU (by decide) (by decide) (by decide)).1

/-- C3 counterexample: alice's accepted FILE_UPDATED on f1 broadcasts
with io.in(room), and that broadcast is delivered to alice's own
connection A — the sender does receive it. -/
theorem C3_counterexample_sender_receives_broadcast :
    hasEditPermission sOwned "A" "f1" = true ∧
    (fileUpdated sOwned "A" "f1" "x").emits
      = [⟨.roomAll "r1", "file-updated", .fileUpdatedP "f1" "x" (some "alice")⟩] ∧
    deliveredTo sOwned ⟨.roomAll "r1", "file-updated", .fileUpdatedP "f1" "x" (some "alice")⟩
      "A" = true := by decide

/-- C3 (amended): an accepted FILE_UPDATED or FILE_DELETED produces
exactly one broadcast addressed to the whole room of the sender
(io.in(roomId)), which is delivered to every connection currently bound
to that room including the sender's own connection. -/
theorem C3_accepted_broadcast_goes_to_whole_room (s : ServerState)
    (sid fid c : String) (u : User)
    (hu : getUserBySocketId s sid = some u)
    (he : hasEditPermission s sid fid = true)
    (hd : hasDeletePermission s sid fid = true) :
    ((fileUpdated s sid fid c).emits
      = [⟨.roomAll u.roomId, "file-updated", .fileUpdatedP fid c (some u.username)⟩]) ∧
    (∀ m ∈ getUsersInRoom s u.roomId,
      deliveredTo s ⟨.roomAll u.roomId, "file-updated", .fileUpdatedP fid c (some u.username)⟩
        m.socketId = true) ∧
    (deliveredTo s ⟨.roomAll u.roomId, "file-updated", .fileUpdatedP fid c (some u.username)⟩
      sid = true) ∧
    ((fileDeleted s sid fid).emits
      = [⟨.roomAll u.roomId, "file-deleted", .fileDeletedP fid (some u.username)⟩]) ∧
    (∀ m ∈ getUsersInRoom s u.roomId,
      deliveredTo s ⟨.roomAll u.roomId, "file-deleted", .fileDeletedP fid (some u.username)⟩
        m.socketId = true) ∧
    (deliveredTo s ⟨.roomAll u.roomId, "file-deleted", .fileDeletedP fid (some u.username)⟩
      sid = true) := by
  refine ⟨?_, ?_, ?_, ?_, ?_, ?_⟩
  · simp [fileUpdated, he, getRoomId, hu]
  · intro m hm
    simpa [deliveredTo] using member_in_room s u.roomId m hm
  · simpa [deliveredTo] using sender_in_room s sid u hu
  · simp [fileDeleted, hd, getRoomId, hu]
  · intro m hm
    simpa [deliveredTo] using member_in_room s u.roomId m hm
  · simpa [deliveredTo] using sender_in_room s sid u hu

/-- C3 witness: alice's accepted update in sOwned is delivered to bob's
connection B (every other member) — and the amended statement also
covers alice herself. -/
theorem C3_accepted_broadcast_goes_to_whole_room_witness :
    deliveredTo sOwned
      ⟨.roomAll aliceU.roomId, "file-updated", .fileUpdatedP "f1" "x" (some aliceU.username)⟩
      "A" = true :=
  (C3_accepted_broadcast_goes_to_whole_room sOwned "A" "f1" "x" aliceU
    (by decide) (by decide) (by decide)).2.2.1

/-- C4 counterexample: alice deletes f1 (the canDelete check passes), yet
afterwards the ownership map still records alice as owner of f1 and the
permission map still has an entry for f1 — the claim that both maps hold
no entry for the id after the delete is false. -/
theorem C4_counterexample_delete_keeps_maps :
    hasDeletePermission sOwned "A" "f1" = true ∧
    lookupA (fileDeleted sOwned "A" "f1").state.fileOwners "f1" = some "alice" ∧
    (lookupA (fileDeleted sOwned "A" "f1").state.filePermissions "f1").isSome = true := by
  decide

/-- C4 (amended): an accepted FILE_DELETED removes the file record from
the caller's room's file list (and touches no other room's list), but it
leaves the ownership map and the permission map completely unchanged —
the entries keyed by the deleted resource id persist. -/
theorem C4_delete_removes_only_room_record (s : ServerState) (sid fid g : String)
    (u : User)
    (hu : getUserBySocketId s sid = some u)
    (hd : hasDeletePermission s sid fid = true)
    (hg : g ≠ u.roomId) :
    ((fileDeleted s sid fid).state.fileOwners = s.fileOwners) ∧
    ((fileDeleted s sid fid).state.filePermissions = s.filePermissions) ∧
    (∀ f ∈ (lookupA (fileDeleted s sid fid).state.filesByRoom u.roomId).getD [],
      f.id ≠ fid) ∧
    (lookupA (fileDeleted s sid fid).state.filesByRoom g = lookupA s.filesByRoom g) := by
  have hroom : (getRoomId s sid).getD "" = u.roomId := by
    simp [getRoomId, hu]
  cases hlf : lookupA s.filesByRoom u.roomId with
  | none =>
    have hstate : (fileDeleted s sid fid).state = s := by
      simp [fileDeleted, hd, hroom, hlf]
    refine ⟨by rw [hstate], by rw [hstate], ?_, by rw [hstate]⟩
    intro f hf
    rw [hstate, hlf] at hf
    simp at hf
  | some fs =>
    have hstate : (fileDeleted s sid fid).state
        = { s with filesByRoom := insertA s.filesByRoom u.roomId (fs.filter (fun f => f.id != fid)) } := by
      simp [fileDeleted, hd, hroom, hlf]
    refine ⟨by rw [hstate], by rw [hstate], ?_, ?_⟩
    · intro f hf
      rw [hstate] at hf
      dsimp only at hf
      rw [lookupA_insertA_self, Option.getD_some] at hf
      have := List.of_mem_filter hf
      simpa using this
    · rw [hstate]
      dsimp only
      rw [lookupA_insertA_ne _ _ _ _ hg]

/-- C4 witness: after alice's accepted delete of f1, the ownership map is
exactly what it was before. -/
theorem C4_delete_removes_only_room_record_witness :
    (fileDeleted sOwned "A" "f1").state.fileOwners = sOwned.fileOwners :=
  (C4_delete_removes_only_room_record sOwned "A" "f1" "r2" aliceU
    (by decide) (by decide) (by decide)).1

end CollabServer
